import Mathlib

/-!
Shallow embedding of the todo-backend's query composition and pagination
layer (Go/Gin/GORM REST backend), together with the service-layer
validation and normalization logic for todos and categories.

Sources embedded:
- `internal/repository/interfaces.go` : `PaginationParams` (`GetOffset`,
  `GetLimit`, `GetSortOrder`), `PaginationResult` (`CalculateTotalPages`),
  `TodoFilters`, `CategoryFilters`.
- `internal/repository/todo_repository.go` : `todoRepository.List`,
  `todoRepository.Create`, `todoRepository.Update`.
- `internal/repository/category_repository.go` : `categoryRepository.Delete`,
  `GetByID`, `Create`, `Update`.
- `internal/services/todo_service.go` and `category_service.go` :
  validation, cleaning and the create/update/delete entry points.
- `internal/models/todo.go`, `category.go` : data shapes, priority enum,
  GORM lifecycle hooks.

Modelling conventions: machine strings are Lean `String` but every string
operation the Go code performs is re-implemented over `String.data`
(`List Char`) so that the kernel can evaluate it; time instants are `Int`
seconds; GORM's soft-delete default scope (rows with `deleted_at IS NULL`)
is an explicit `deletedAt = none` test on every read; the database is an
explicit list of rows and SQL execution is modelled as filter / sort /
drop / take over it.
-/

namespace TodoBackend

/-- `strings.ToLower` (ASCII case folding, which is all the code relies on). -/
def goToLower (s : String) : String := ⟨s.data.map Char.toLower⟩

/-- `strings.TrimSpace`: drop whitespace from both ends. -/
def goTrimSpace (s : String) : String :=
  ⟨((s.data.dropWhile Char.isWhitespace).reverse.dropWhile Char.isWhitespace).reverse⟩

/-- SQL `haystack LIKE '%' || needle || '%'` for a needle without wildcard
characters: substring containment. -/
def containsSub (needle haystack : String) : Bool :=
  decide (List.IsInfix needle.data haystack.data)

/-- Go integer division on `int64` (truncates toward zero). -/
def goDiv (a b : Int) : Int := Int.tdiv a b

/-- `models.Priority.IsValid`. -/
def priorityIsValid (p : String) : Bool :=
  p = "low" || p = "medium" || p = "high"

/-- `models.Todo` row (timestamps and the soft-delete marker are `Int`
seconds; `deletedAt = none` means the row is live). -/
structure Todo where
  id : Nat
  title : String
  description : String := ""
  completed : Bool := false
  priority : String := ""
  dueDate : Option Int := none
  categoryId : Option Nat := none
  createdAt : Int := 0
  updatedAt : Int := 0
  deletedAt : Option Int := none
deriving DecidableEq

/-- `models.Category` row. -/
structure Category where
  id : Nat
  name : String
  color : String := ""
  createdAt : Int := 0
  updatedAt : Int := 0
  deletedAt : Option Int := none
deriving DecidableEq

/-- `repository.PaginationParams`. -/
structure PaginationParams where
  page : Int
  limit : Int
  sortBy : String := ""
  sortOrder : String := ""
deriving DecidableEq

/-- `PaginationParams.GetLimit`: default 10 when non-positive, capped at 100. -/
def PaginationParams.GetLimit (p : PaginationParams) : Int :=
  if p.limit ≤ 0 then 10
  else if p.limit > 100 then 100
  else p.limit

/-- `PaginationParams.GetOffset`. The Go method mutates `p.Page` (sets it
to 1 when non-positive) and then returns `(p.Page - 1) * p.GetLimit()`;
we return the mutated params together with the offset. -/
def PaginationParams.GetOffset (p : PaginationParams) : PaginationParams × Int :=
  let p2 := if p.page ≤ 0 then { p with page := 1 } else p
  (p2, (p2.page - 1) * p2.GetLimit)

/-- `PaginationParams.GetSortOrder`: "desc" only when the requested order
is the empty string; any other string is returned verbatim. -/
def PaginationParams.GetSortOrder (p : PaginationParams) : String :=
  if p.sortOrder = "" then "desc" else p.sortOrder

/-- `repository.PaginationResult`. -/
structure PaginationResult where
  currentPage : Int
  perPage : Int
  total : Int
  totalPages : Int
deriving DecidableEq

/-- The composite literal `PaginationResult{CurrentPage: ..., PerPage: ...,
Total: ...}` used by both `List` implementations: `TotalPages` is left at
Go's zero value. -/
def mkPaginationResult (currentPage perPage total : Int) : PaginationResult :=
  { currentPage := currentPage, perPage := perPage, total := total, totalPages := 0 }

/-- `PaginationResult.CalculateTotalPages`: ceiling division when
`PerPage > 0`, otherwise the field is left untouched. -/
def PaginationResult.CalculateTotalPages (r : PaginationResult) : PaginationResult :=
  if 0 < r.perPage then
    { r with totalPages := goDiv (r.total + r.perPage - 1) r.perPage }
  else r

/-- `repository.TodoFilters` (`Completed` and `CategoryID` are pointers in
Go, hence `Option`; `Priority` is a plain string, empty = absent). -/
structure TodoFilters where
  search : String := ""
  completed : Option Bool := none
  categoryId : Option Nat := none
  priority : String := ""
deriving DecidableEq

/-- The WHERE clause built by `todoRepository.List` plus GORM's implicit
soft-delete scope: all present filters are conjoined, absent ones add no
constraint. -/
def todoMatchesFilters (f : TodoFilters) (t : Todo) : Bool :=
  (t.deletedAt = none)
  && (f.search = "" || containsSub (goToLower f.search) (goToLower t.title))
  && (match f.completed with
      | none => true
      | some b => t.completed = b)
  && (match f.categoryId with
      | none => true
      | some cid => t.categoryId = some cid)
  && (f.priority = "" || t.priority = f.priority)

/-- Allow-listed sort columns for todos (`validSortFields` in
`todoRepository.List`). -/
def todoValidSortFields : List String :=
  ["title", "completed", "priority", "due_date", "created_at", "updated_at"]

/-- Allow-listed sort columns for categories (`validSortFields` in
`categoryRepository.List`). -/
def categoryValidSortFields : List String :=
  ["name", "created_at", "updated_at"]

/-- Sort-field resolution in `todoRepository.List`: start from
`created_at`, replace only when the requested field is non-empty and in
the allow-list. -/
def resolveTodoSortBy (requested : String) : String :=
  if requested = "" then "created_at"
  else if todoValidSortFields.contains requested then requested
  else "created_at"

/-- Sort-field resolution in `categoryRepository.List`. -/
def resolveCategorySortBy (requested : String) : String :=
  if requested = "" then "created_at"
  else if categoryValidSortFields.contains requested then requested
  else "created_at"

/-- The `CASE priority WHEN 'high' THEN 1 WHEN 'medium' THEN 2 WHEN 'low'
THEN 3 END` ordering key. A value outside the enum yields SQL NULL, which
Postgres places after every number in ASC order and before every number in
DESC order; rank 4 together with the flipped relation for DESC models
exactly that. -/
def priorityCaseRank (p : String) : Nat :=
  if p = "high" then 1
  else if p = "medium" then 2
  else if p = "low" then 3
  else 4

/-- Lexicographic comparison of char lists (SQL text ordering for the
`title` column, restricted to the byte-wise collation the tests rely on). -/
def charListLe : List Char → List Char → Bool
  | [], _ => true
  | _ :: _, [] => false
  | a :: as, b :: bs => if a = b then charListLe as bs else decide (a < b)

/-- `Option Int` ascending comparison with SQL NULLS LAST (Postgres ASC
default), used for the nullable `due_date` column. -/
def optIntLeNullsLast : Option Int → Option Int → Bool
  | none, none => true
  | none, some _ => false
  | some _, none => true
  | some a, some b => decide (a ≤ b)

/-- Ascending comparison for a non-priority ORDER BY column of the todos
table. Unknown fields cannot reach this function (the resolver falls back
to `created_at`), so the final catch-all is `created_at`. -/
def todoColLeAsc (field : String) (x y : Todo) : Bool :=
  if field = "title" then charListLe x.title.data y.title.data
  else if field = "completed" then !x.completed || y.completed
  else if field = "due_date" then optIntLeNullsLast x.dueDate y.dueDate
  else if field = "updated_at" then decide (x.updatedAt ≤ y.updatedAt)
  else decide (x.createdAt ≤ y.createdAt)

/-- The ORDER BY comparison actually executed for todos: for `priority`,
the CASE rank (flipped when the `DESC` keyword was appended); for other
columns, the column value (flipped for DESC; Postgres DESC also flips the
NULL placement, which flipping the relation captures). -/
def todoOrderLe (field : String) (descOrd : Bool) (x y : Todo) : Bool :=
  if field = "priority" then
    if descOrd then decide (priorityCaseRank y.priority ≤ priorityCaseRank x.priority)
    else decide (priorityCaseRank x.priority ≤ priorityCaseRank y.priority)
  else if descOrd then todoColLeAsc field y x
  else todoColLeAsc field x y

/-- Interpretation of the raw direction string that
`pagination.GetSortOrder()` interpolates into `ORDER BY col <dir>`:
Postgres accepts the keywords case-insensitively and rejects anything
else as a syntax error (`none`). -/
def sqlDirection (s : String) : Option Bool :=
  if goToLower s = "asc" then some false
  else if goToLower s = "desc" then some true
  else none

/-- The sorted, fully filtered result set of `todoRepository.List`
(before OFFSET/LIMIT), or a SQL error. Sorting by `priority` never
inspects the raw direction string beyond the exact comparison
`GetSortOrder() == "desc"` in Go, so it cannot fail; any other column
embeds the direction string into SQL. -/
def todoSortedRows (db : List Todo) (f : TodoFilters) (p : PaginationParams) :
    Except String (List Todo) :=
  if resolveTodoSortBy p.sortBy = "priority" then
    .ok (List.insertionSort
      (fun x y => todoOrderLe "priority" (decide (p.GetSortOrder = "desc")) x y = true)
      (db.filter (todoMatchesFilters f)))
  else
    match sqlDirection p.GetSortOrder with
    | none => .error "invalid sort direction"
    | some d =>
      .ok (List.insertionSort
        (fun x y => todoOrderLe (resolveTodoSortBy p.sortBy) d x y = true)
        (db.filter (todoMatchesFilters f)))

/-- `todoRepository.List`: count the filtered rows, sort, apply
OFFSET/LIMIT, and return the page plus pagination metadata. `CurrentPage`
reads `pagination.Page` after `GetOffset` has already mutated it. -/
def todoRepoList (db : List Todo) (f : TodoFilters) (p : PaginationParams) :
    Except String (List Todo × PaginationResult) :=
  match todoSortedRows db f p with
  | .error e => .error e
  | .ok sorted =>
    .ok ((sorted.drop p.GetOffset.2.toNat).take p.GetLimit.toNat,
      (mkPaginationResult p.GetOffset.1.page p.GetLimit
        ((db.filter (todoMatchesFilters f)).length : Int)).CalculateTotalPages)

/-! ### Database state and repository operations -/

/-- The relational store: the `categories` and `todos` tables. -/
structure DB where
  categories : List Category
  todos : List Todo
deriving DecidableEq

/-- `db.First(&category, id)` under GORM's soft-delete default scope:
the first live row with the given primary key. -/
def findCategory (db : DB) (id : Nat) : Option Category :=
  db.categories.find? (fun c => c.id = id && c.deletedAt = none)

/-- `categoryRepository.GetByID`: not-found when no live row has the id. -/
def categoryRepoGetByID (db : DB) (id : Nat) : Except String Category :=
  match findCategory db id with
  | none => .error "category not found"
  | some c => .ok c

/-- The unique constraint on `categories(name)`. Migration 001 declares
the column `NOT NULL UNIQUE` and the GORM `uniqueIndex` tag does the same
under AutoMigrate, so uniqueness is global — soft-deleted rows conflict
too (`idx_categories_name ... WHERE deleted_at IS NULL` is an ordinary,
non-unique index). For an INSERT, any existing row with the name
conflicts. -/
def categoryNameExists (db : DB) (name : String) : Bool :=
  db.categories.any (fun c => c.name = name)

/-- The same global unique constraint as seen by an UPDATE of row
`selfId`: any other row — live or soft-deleted — with the name
conflicts. -/
def categoryNameTaken (db : DB) (selfId : Nat) (name : String) : Bool :=
  db.categories.any (fun c => c.id ≠ selfId && c.name = name)

/-- `models.Category.BeforeCreate`: default color when empty. -/
def categoryBeforeCreate (c : Category) : Category :=
  if c.color = "" then { c with color := "#3B82F6" } else c

/-- `categoryRepository.Create`: run the BeforeCreate hook, surface a
unique-name violation as its mapped message, otherwise insert the row.
(The database-assigned serial id is not modelled; callers that need a
fresh id pass one in.) -/
def categoryRepoCreate (db : DB) (cat : Category) : Except String DB :=
  let c := categoryBeforeCreate cat
  if categoryNameExists db c.name then
    .error "category name already exists"
  else
    .ok { db with categories := db.categories ++ [c] }

/-- `categoryRepository.Update`: check the row exists (live), surface a
unique-name violation, otherwise `Save` overwrites the live row with the
same primary key. -/
def categoryRepoUpdate (db : DB) (cat : Category) : Except String DB :=
  match findCategory db cat.id with
  | none => .error "category not found"
  | some _ =>
    if categoryNameTaken db cat.id cat.name then
      .error "category name already exists"
    else
      .ok { db with categories :=
        db.categories.map (fun c =>
          if c.id = cat.id && c.deletedAt = none then cat else c) }

/-- The soft delete `r.db.Delete(&category)` issues:
`UPDATE categories SET deleted_at = now WHERE id = ? AND deleted_at IS NULL`. -/
def softDeleteCategory (db : DB) (now : Int) (id : Nat) : DB :=
  { db with categories :=
    db.categories.map (fun c =>
      if c.id = id && c.deletedAt = none then { c with deletedAt := some now } else c) }

/-- `categoryRepository.Delete`: check the row exists (live), count the
live todos referencing it (`Where("category_id = ?", id)` under the
default scope), refuse when any exist, otherwise soft-delete. -/
def categoryRepoDelete (db : DB) (now : Int) (id : Nat) : Except String DB :=
  match findCategory db id with
  | none => .error "category not found"
  | some _ =>
    let todoCount := (db.todos.filter
      (fun t => t.deletedAt = none && t.categoryId = some id)).length
    if todoCount > 0 then
      .error "cannot delete category with associated todos"
    else
      .ok (softDeleteCategory db now id)

/-- `db.First(&todo, id)` under the default scope. -/
def findTodo (db : DB) (id : Nat) : Option Todo :=
  db.todos.find? (fun t => t.id = id && t.deletedAt = none)

/-- `models.Todo.BeforeCreate`: default priority when empty. -/
def todoBeforeCreate (t : Todo) : Todo :=
  if t.priority = "" then { t with priority := "medium" } else t

/-- `todoRepository.Create`: validate the referenced category exists
(live) before insert, then insert through the BeforeCreate hook. -/
def todoRepoCreate (db : DB) (t : Todo) : Except String DB :=
  match t.categoryId with
  | some cid =>
    match findCategory db cid with
    | none => .error "category not found"
    | some _ => .ok { db with todos := db.todos ++ [todoBeforeCreate t] }
  | none => .ok { db with todos := db.todos ++ [todoBeforeCreate t] }

/-- `todoRepository.Update`: check the todo exists (live), validate any
referenced category, run the BeforeUpdate hook (invalid non-empty
priority is a GORM error), then `Save` overwrites the live row. -/
def todoRepoUpdate (db : DB) (t : Todo) : Except String DB :=
  match findTodo db t.id with
  | none => .error "todo not found"
  | some _ =>
    match t.categoryId with
    | some cid =>
      match findCategory db cid with
      | none => .error "category not found"
      | some _ =>
        if t.priority ≠ "" && !priorityIsValid t.priority then
          .error "invalid value, should be pointer to struct or slice"
        else
          .ok { db with todos :=
            db.todos.map (fun u => if u.id = t.id && u.deletedAt = none then t else u) }
    | none =>
      if t.priority ≠ "" && !priorityIsValid t.priority then
        .error "invalid value, should be pointer to struct or slice"
      else
        .ok { db with todos :=
          db.todos.map (fun u => if u.id = t.id && u.deletedAt = none then t else u) }

/-! ### Service layer -/

/-- Outcome of a service call. `crash` models a Go runtime panic (nil
pointer dereference) as opposed to an error value returned to the caller. -/
inductive SvcResult (α : Type) where
  | ok : α → SvcResult α
  | err : String → SvcResult α
  | crash : SvcResult α
deriving DecidableEq

/-- One hex digit as tested by the Go loop. -/
def isHexDigitChar (c : Char) : Bool :=
  (decide ('0' ≤ c) && decide (c ≤ '9'))
  || (decide ('A' ≤ c) && decide (c ≤ 'F'))
  || (decide ('a' ≤ c) && decide (c ≤ 'f'))

/-- `isValidHexColor`: exactly 7 characters, a leading '#', then six hex
digits. Go indexes bytes; on any string the byte-wise and char-wise
checks agree, because a multibyte character both breaks the length test
whenever the char count differs and never passes the hex-digit ranges. -/
def isValidHexColor (color : String) : Bool :=
  match color.data with
  | [c0, c1, c2, c3, c4, c5, c6] =>
    c0 = '#' && isHexDigitChar c1 && isHexDigitChar c2 && isHexDigitChar c3
      && isHexDigitChar c4 && isHexDigitChar c5 && isHexDigitChar c6
  | _ => false

/-- `categoryService.validateCategory` applied to a non-nil category. -/
def validateCategoryFields (cat : Category) : Option String :=
  if goTrimSpace cat.name = "" then some "category name is required"
  else if cat.name.utf8ByteSize > 100 then some "category name cannot exceed 100 characters"
  else if cat.color ≠ "" && !isValidHexColor cat.color then
    some "invalid color format, must be a valid hex color (e.g., #FF0000)"
  else none

/-- `categoryService.cleanCategoryData`: trim the name, prefix a missing
'#' on a non-empty color. -/
def cleanCategoryData (cat : Category) : Category :=
  { cat with
    name := goTrimSpace cat.name
    color := if cat.color ≠ "" && !(cat.color.data.head? = some '#') then "#" ++ cat.color
             else cat.color }

/-- `categoryService.CreateCategory`: validate (the nil check is the
first line of `validateCategory`), clean, then create. -/
def createCategoryService (db : DB) (cat? : Option Category) : SvcResult DB :=
  match cat? with
  | none => .err "category cannot be nil"
  | some cat =>
    match validateCategoryFields cat with
    | some e => .err e
    | none =>
      match categoryRepoCreate db (cleanCategoryData cat) with
      | .error e => .err e
      | .ok db2 => .ok db2

/-- `categoryService.UpdateCategory`. The Go method reads `category.ID`
before any nil check, so a nil argument dereferences a nil pointer:
`crash`. -/
def updateCategoryService (db : DB) (cat? : Option Category) : SvcResult DB :=
  match cat? with
  | none => .crash
  | some cat =>
    if cat.id = 0 then .err "invalid category ID"
    else
      match validateCategoryFields cat with
      | some e => .err e
      | none =>
        match categoryRepoUpdate db (cleanCategoryData cat) with
        | .error e => .err e
        | .ok db2 => .ok db2

/-- `categoryService.DeleteCategory`. -/
def deleteCategoryService (db : DB) (now : Int) (id : Nat) : SvcResult DB :=
  if id = 0 then .err "invalid category ID"
  else
    match categoryRepoDelete db now id with
    | .error e => .err e
    | .ok db2 => .ok db2

/-- `todoService.validateTodo` applied to a non-nil todo. Go's `len` is
byte length. -/
def validateTodoFields (t : Todo) : Option String :=
  if goTrimSpace t.title = "" then some "todo title is required"
  else if t.title.utf8ByteSize > 255 then some "todo title cannot exceed 255 characters"
  else if t.description.utf8ByteSize > 5000 then some "todo description cannot exceed 5000 characters"
  else if t.priority ≠ "" && !priorityIsValid t.priority then some "invalid priority value"
  else none

/-- `todoService.cleanTodoData`: trim title/description, default the
priority, normalize the due date to UTC (an identity on instants). -/
def cleanTodoData (t : Todo) : Todo :=
  { t with
    title := goTrimSpace t.title
    description := goTrimSpace t.description
    priority := if t.priority = "" then "medium" else t.priority }

/-- `todoService.validateTodoBusinessRules`: a set due date must not lie
strictly more than 24 hours (86400 s) before `now`; a set category id
must resolve to a live category. -/
def validateTodoBusinessRules (now : Int) (db : DB) (t : Todo) : Option String :=
  let catCheck : Option String :=
    match t.categoryId with
    | some cid =>
      match findCategory db cid with
      | none => some "specified category does not exist"
      | some _ => none
    | none => none
  match t.dueDate with
  | some d => if d < now - 86400 then some "due date cannot be in the past" else catCheck
  | none => catCheck

/-- `todoService.CreateTodo`. -/
def createTodoService (now : Int) (db : DB) (t? : Option Todo) : SvcResult DB :=
  match t? with
  | none => .err "todo cannot be nil"
  | some t =>
    match validateTodoFields t with
    | some e => .err e
    | none =>
      let t2 := cleanTodoData t
      match validateTodoBusinessRules now db t2 with
      | some e => .err e
      | none =>
        match todoRepoCreate db t2 with
        | .error e => .err e
        | .ok db2 => .ok db2

/-- `todoService.UpdateTodo`. The Go method reads `todo.ID` before any
nil check, so a nil argument dereferences a nil pointer: `crash`. -/
def updateTodoService (now : Int) (db : DB) (t? : Option Todo) : SvcResult DB :=
  match t? with
  | none => .crash
  | some t =>
    if t.id = 0 then .err "invalid todo ID"
    else
      match validateTodoFields t with
      | some e => .err e
      | none =>
        let t2 := cleanTodoData t
        match validateTodoBusinessRules now db t2 with
        | some e => .err e
        | none =>
          match todoRepoUpdate db t2 with
          | .error e => .err e
          | .ok db2 => .ok db2

/-! ### Example fixtures (concrete rows used by witnesses) -/

/-- A live low-priority todo. -/
def exTodoLow : Todo := { id := 1, title := "alpha", priority := "low", createdAt := 1 }

/-- A live completed high-priority todo. -/
def exTodoHigh : Todo :=
  { id := 2, title := "beta", priority := "high", completed := true, createdAt := 2 }

/-- A live medium-priority todo. -/
def exTodoMed : Todo := { id := 3, title := "gamma", priority := "medium", createdAt := 3 }

/-- A soft-deleted completed high-priority todo. -/
def exTodoGone : Todo :=
  { id := 4, title := "delta", priority := "high", completed := true,
    createdAt := 4, deletedAt := some 5 }

/-- Todos table used by witnesses. -/
def exTodoTable : List Todo := [exTodoLow, exTodoHigh, exTodoMed, exTodoGone]

/-- A live category. -/
def exCategory : Category := { id := 1, name := "Work", color := "#3B82F6" }

/-- Filters selecting completed high-priority todos. -/
def exFilters : TodoFilters := { completed := some true, priority := "high" }

/-! ### Helper lemmas -/

theorem calculateTotalPages_total (r : PaginationResult) :
    r.CalculateTotalPages.total = r.total := by
  unfold PaginationResult.CalculateTotalPages
  split <;> rfl

theorem goDiv_ceil_bounds (a b : Int) (ha : 0 ≤ a) (hb : 0 < b) :
    a ≤ goDiv (a + b - 1) b * b ∧ goDiv (a + b - 1) b * b < a + b := by
  unfold goDiv
  rw [Int.tdiv_eq_ediv (by omega) (by omega), mul_comm]
  have h1 := Int.ediv_add_emod (a + b - 1) b
  have h2 := Int.emod_nonneg (a + b - 1) (by omega : b ≠ 0)
  have h3 := Int.emod_lt_of_pos (a + b - 1) hb
  generalize hq : (a + b - 1) / b = q at h1
  generalize hr : (a + b - 1) % b = r at h1 h2 h3
  generalize hX : b * q = X at h1 ⊢
  omega

theorem isValidHexColor_of_length_ne (color : String)
    (h : color.data.length ≠ 7) : isValidHexColor color = false := by
  unfold isValidHexColor
  split
  · rename_i c0 c1 c2 c3 c4 c5 c6 heq
    exact absurd (by rw [heq]; rfl) h
  · rfl

theorem todoSortedRows_perm (db : List Todo) (f : TodoFilters) (p : PaginationParams)
    (sorted : List Todo) (h : todoSortedRows db f p = .ok sorted) :
    sorted.Perm (db.filter (todoMatchesFilters f)) := by
  unfold todoSortedRows at h
  split at h
  · injection h with h2
    rw [← h2]
    exact List.perm_insertionSort _ _
  · split at h
    · cases h
    · injection h with h2
      rw [← h2]
      exact List.perm_insertionSort _ _

theorem todoRepoList_ok_shape (db : List Todo) (f : TodoFilters) (p : PaginationParams)
    (rows : List Todo) (pres : PaginationResult)
    (h : todoRepoList db f p = .ok (rows, pres)) :
    ∃ sorted, todoSortedRows db f p = .ok sorted
      ∧ sorted.Perm (db.filter (todoMatchesFilters f))
      ∧ rows = (sorted.drop p.GetOffset.2.toNat).take p.GetLimit.toNat
      ∧ pres = (mkPaginationResult p.GetOffset.1.page p.GetLimit
          ((db.filter (todoMatchesFilters f)).length : Int)).CalculateTotalPages := by
  unfold todoRepoList at h
  cases hs : todoSortedRows db f p with
  | error e => rw [hs] at h; cases h
  | ok sorted =>
    rw [hs] at h
    injection h with h2
    rw [Prod.ext_iff] at h2
    exact ⟨sorted, rfl, todoSortedRows_perm db f p sorted hs, h2.1.symm, h2.2.symm⟩

theorem pairwise_insertionSort_le (le : Todo → Todo → Bool)
    (htot : ∀ x y, le x y = true ∨ le y x = true)
    (htrans : ∀ x y z, le x y = true → le y z = true → le x z = true)
    (l : List Todo) :
    (List.insertionSort (fun x y => le x y = true) l).Pairwise
      (fun x y => le x y = true) := by
  haveI : IsTotal Todo (fun x y => le x y = true) := ⟨htot⟩
  haveI : IsTrans Todo (fun x y => le x y = true) := ⟨htrans⟩
  exact List.sorted_insertionSort _ l

theorem pairwise_insertionSort_priority (b : Bool) (l : List Todo) :
    (List.insertionSort (fun x y => todoOrderLe "priority" b x y = true) l).Pairwise
      (fun x y => todoOrderLe "priority" b x y = true) := by
  apply pairwise_insertionSort_le
  · intro x y
    cases b <;> simp [todoOrderLe] <;> omega
  · intro x y z
    cases b <;> simp [todoOrderLe] <;> omega

theorem todoRepoCreate_error (db : DB) (t : Todo) (e : String)
    (h : todoRepoCreate db t = .error e) : e = "category not found" := by
  unfold todoRepoCreate at h
  split at h
  · split at h
    · injection h with h2
      exact h2.symm
    · cases h
  · cases h

theorem todoRepoUpdate_error (db : DB) (t : Todo) (e : String)
    (h : todoRepoUpdate db t = .error e) :
    e = "todo not found" ∨ e = "category not found"
      ∨ e = "invalid value, should be pointer to struct or slice" := by
  unfold todoRepoUpdate at h
  split at h
  · injection h with h2
    exact Or.inl h2.symm
  · split at h
    · split at h
      · injection h with h2
        exact Or.inr (Or.inl h2.symm)
      · split at h
        · injection h with h2
          exact Or.inr (Or.inr h2.symm)
        · cases h
    · split at h
      · injection h with h2
        exact Or.inr (Or.inr h2.symm)
      · cases h

/-! ### Claims -/

/-- C1: whenever the todo store's List succeeds with both the completed
flag and a non-empty (valid) priority filter present, every returned row
is live (not soft-deleted), has exactly the requested completed value and
exactly the requested priority; at most the clamped limit rows are
returned; and the returned pagination total counts all rows matching the
filters, not the rows on the returned page. -/
theorem C1_list_completed_priority (db : List Todo) (f : TodoFilters)
    (p : PaginationParams) (b : Bool) (rows : List Todo) (pres : PaginationResult)
    (hc : f.completed = some b) (hp : f.priority ≠ "")
    (_hpv : priorityIsValid f.priority = true)
    (h : todoRepoList db f p = .ok (rows, pres)) :
    (∀ t ∈ rows, t.deletedAt = none ∧ t.completed = b ∧ t.priority = f.priority)
    ∧ rows.length ≤ p.GetLimit.toNat
    ∧ pres.total = ((db.filter (todoMatchesFilters f)).length : Int) := by
  obtain ⟨sorted, hs, hperm, hrows, hpres⟩ := todoRepoList_ok_shape db f p rows pres h
  refine ⟨?_, ?_, ?_⟩
  · intro t ht
    have ht2 : t ∈ sorted := by
      rw [hrows] at ht
      exact List.drop_subset _ _ (List.take_subset _ _ ht)
    have ht3 : t ∈ db.filter (todoMatchesFilters f) := hperm.mem_iff.mp ht2
    have hmatch : todoMatchesFilters f t = true := (List.mem_filter.mp ht3).2
    unfold todoMatchesFilters at hmatch
    rw [hc] at hmatch
    simp only [Bool.and_eq_true, Bool.or_eq_true, decide_eq_true_eq] at hmatch
    obtain ⟨⟨⟨⟨hdel, hsearch⟩, hcomp⟩, hcat⟩, hpri⟩ := hmatch
    refine ⟨hdel, hcomp, ?_⟩
    cases hpri with
    | inl h1 => exact absurd h1 hp
    | inr h2 => exact h2
  · rw [hrows, List.length_take]
    exact min_le_left _ _
  · rw [hpres, calculateTotalPages_total]
    rfl

/-- C1 witness: completed=true plus priority=high on a four-row table
returns exactly the one live completed high-priority row, within the
limit, with total 1. -/
theorem C1_list_completed_priority_witness :
    exFilters.completed = some true
    ∧ exFilters.priority ≠ ""
    ∧ priorityIsValid exFilters.priority = true
    ∧ ((∀ t ∈ ([exTodoHigh] : List Todo),
          t.deletedAt = none ∧ t.completed = true ∧ t.priority = exFilters.priority)
      ∧ ([exTodoHigh] : List Todo).length ≤ (⟨1, 5, "", ""⟩ : PaginationParams).GetLimit.toNat
      ∧ ({ currentPage := 1, perPage := 5, total := 1, totalPages := 1 } : PaginationResult).total
          = ((exTodoTable.filter (todoMatchesFilters exFilters)).length : Int)) :=
  ⟨rfl, by decide, by decide,
    C1_list_completed_priority exTodoTable exFilters ⟨1, 5, "", ""⟩ true [exTodoHigh]
      { currentPage := 1, perPage := 5, total := 1, totalPages := 1 }
      rfl (by decide) (by decide) rfl⟩

/-- C7: when the resolved sort field is `priority`, the ordering key is
the severity rank high=1, medium=2, low=3 (not the alphabetical order of
the strings): with direction `asc` the returned rows are pairwise
non-decreasing in rank (high before medium before low), and with `desc`
pairwise non-increasing (the exact reverse rank order). -/
theorem C7_priority_rank_sort (db : List Todo) (f : TodoFilters)
    (p : PaginationParams) (rows : List Todo) (pres : PaginationResult)
    (hsb : p.sortBy = "priority")
    (h : todoRepoList db f p = .ok (rows, pres)) :
    (p.sortOrder = "asc" →
      rows.Pairwise (fun x y => priorityCaseRank x.priority ≤ priorityCaseRank y.priority))
    ∧ (p.sortOrder = "desc" →
      rows.Pairwise (fun x y => priorityCaseRank y.priority ≤ priorityCaseRank x.priority)) := by
  obtain ⟨sorted, hs, hperm, hrows, hpres⟩ := todoRepoList_ok_shape db f p rows pres h
  unfold todoSortedRows at hs
  rw [hsb] at hs
  rw [if_pos (show resolveTodoSortBy "priority" = "priority" from rfl)] at hs
  injection hs with hs2
  have hsub : List.Sublist rows sorted := by
    rw [hrows]
    exact (List.take_sublist _ _).trans (List.drop_sublist _ _)
  constructor
  · intro ho
    have hb : (decide (p.GetSortOrder = "desc")) = false := by
      unfold PaginationParams.GetSortOrder
      rw [ho, if_neg (by decide)]
      decide
    rw [hb] at hs2
    have hpw := pairwise_insertionSort_priority false (db.filter (todoMatchesFilters f))
    rw [hs2] at hpw
    refine (hpw.sublist hsub).imp ?_
    intro x y hxy
    simpa [todoOrderLe] using hxy
  · intro ho
    have hb : (decide (p.GetSortOrder = "desc")) = true := by
      unfold PaginationParams.GetSortOrder
      rw [ho, if_neg (by decide)]
      decide
    rw [hb] at hs2
    have hpw := pairwise_insertionSort_priority true (db.filter (todoMatchesFilters f))
    rw [hs2] at hpw
    refine (hpw.sublist hsub).imp ?_
    intro x y hxy
    simpa [todoOrderLe] using hxy

/-- C7 witness: sorting [low, high, medium] by priority ascending returns
[high, medium, low]; both direction implications are discharged at the
concrete input with direction "asc". -/
theorem C7_priority_rank_sort_witness :
    (⟨1, 5, "priority", "asc"⟩ : PaginationParams).sortBy = "priority"
    ∧ ((("asc" : String) = "asc" →
        ([exTodoHigh, exTodoMed, exTodoLow] : List Todo).Pairwise
          (fun x y => priorityCaseRank x.priority ≤ priorityCaseRank y.priority))
      ∧ (("asc" : String) = "desc" →
        ([exTodoHigh, exTodoMed, exTodoLow] : List Todo).Pairwise
          (fun x y => priorityCaseRank y.priority ≤ priorityCaseRank x.priority))) :=
  ⟨rfl,
    C7_priority_rank_sort [exTodoLow, exTodoHigh, exTodoMed] {} ⟨1, 5, "priority", "asc"⟩
      [exTodoHigh, exTodoMed, exTodoLow]
      { currentPage := 1, perPage := 5, total := 3, totalPages := 1 }
      rfl rfl⟩

/-- C5: for every pair `(page, limit)`, `GetLimit` yields 10 when
`limit ≤ 0`, 100 when `limit > 100` and `limit` otherwise; the effective
page (the value `GetOffset` writes back into `Page`) is 1 when `page ≤ 0`
and `page` otherwise; and the produced offset equals
`(effective page - 1) * effective limit`. -/
theorem C5_pagination_clamp (p : PaginationParams) :
    p.GetLimit = (if p.limit ≤ 0 then 10 else if p.limit > 100 then 100 else p.limit)
    ∧ p.GetOffset.1.page = (if p.page ≤ 0 then 1 else p.page)
    ∧ p.GetOffset.2 = (p.GetOffset.1.page - 1) * p.GetLimit := by
  refine ⟨rfl, ?_, ?_⟩
  · unfold PaginationParams.GetOffset
    split <;> rfl
  · unfold PaginationParams.GetOffset PaginationParams.GetLimit
    split <;> rfl

/-- C6: for every non-negative total and every per-page value, the
total-page count computed by `CalculateTotalPages` on a freshly
constructed `PaginationResult` equals the integer ceiling
`(total + perPage - 1) / perPage` when `perPage > 0` (witnessed as a true
ceiling by the two bounding inequalities), and equals 0 when
`perPage ≤ 0` (the field keeps its zero initial value). -/
theorem C6_total_pages (page total perPage : Int) (ht : 0 ≤ total) :
    (0 < perPage →
      ((mkPaginationResult page perPage total).CalculateTotalPages).totalPages
          = goDiv (total + perPage - 1) perPage
        ∧ total ≤ ((mkPaginationResult page perPage total).CalculateTotalPages).totalPages * perPage
        ∧ ((mkPaginationResult page perPage total).CalculateTotalPages).totalPages * perPage
            < total + perPage)
    ∧ (perPage ≤ 0 →
      ((mkPaginationResult page perPage total).CalculateTotalPages).totalPages = 0) := by
  constructor
  · intro hp
    have hshape :
        ((mkPaginationResult page perPage total).CalculateTotalPages).totalPages
          = goDiv (total + perPage - 1) perPage := by
      unfold mkPaginationResult PaginationResult.CalculateTotalPages
      rw [if_pos hp]
    have hb := goDiv_ceil_bounds total perPage ht hp
    exact ⟨hshape, by rw [hshape]; exact hb.1, by rw [hshape]; exact hb.2⟩
  · intro hp
    unfold mkPaginationResult PaginationResult.CalculateTotalPages
    rw [if_neg (by simp; omega)]

/-- C6 witness: total 25, per-page 10 gives 3 total pages. -/
theorem C6_total_pages_witness :
    (0 : Int) ≤ 25
    ∧ ((0 < (10 : Int) →
        ((mkPaginationResult 1 10 25).CalculateTotalPages).totalPages
            = goDiv (25 + 10 - 1) 10
          ∧ (25 : Int) ≤ ((mkPaginationResult 1 10 25).CalculateTotalPages).totalPages * 10
          ∧ ((mkPaginationResult 1 10 25).CalculateTotalPages).totalPages * 10 < 25 + 10)
      ∧ ((10 : Int) ≤ 0 →
        ((mkPaginationResult 1 10 25).CalculateTotalPages).totalPages = 0)) :=
  ⟨by decide, C6_total_pages 1 25 10 (by decide)⟩

/-- C2 counterexample: `GetSortOrder` returns the invalid direction
string "ASC" verbatim instead of falling back to "desc", so the claim
that every direction other than exactly "asc"/"desc" resolves to "desc"
is false. -/
theorem C2_counterexample :
    PaginationParams.GetSortOrder ⟨1, 10, "", "ASC"⟩ = "ASC"
    ∧ ¬ (∀ p : PaginationParams,
        p.sortOrder ≠ "asc" → p.sortOrder ≠ "desc" → p.GetSortOrder = "desc") := by
  constructor
  · rfl
  · intro hclaim
    have h := hclaim ⟨1, 10, "", "ASC"⟩ (by decide) (by decide)
    exact absurd h (by decide)

/-- C2 amended: for every requested field and direction, a field outside
the todo allow-list resolves to `created_at` for todo lists, a field
outside the category allow-list resolves to `created_at` for category
lists (each resource checks only its own list), and the direction falls
back to "desc" only when the requested direction is absent (the empty
string); any other string — including "ASC" or arbitrary text — is
returned verbatim by `GetSortOrder`. -/
theorem C2_sort_resolution (p : PaginationParams) (s : String) :
    (todoValidSortFields.contains s = false → resolveTodoSortBy s = "created_at")
    ∧ (categoryValidSortFields.contains s = false → resolveCategorySortBy s = "created_at")
    ∧ p.GetSortOrder = (if p.sortOrder = "" then "desc" else p.sortOrder) := by
  refine ⟨?_, ?_, rfl⟩
  · intro hts
    unfold resolveTodoSortBy
    split
    · rfl
    · rw [if_neg (by rw [hts]; exact Bool.false_ne_true)]
  · intro hcs
    unfold resolveCategorySortBy
    split
    · rfl
    · rw [if_neg (by rw [hcs]; exact Bool.false_ne_true)]

/-- C2 witness: per-resource fallbacks at concrete fields — "name" is
valid for categories but falls back for todos, "priority" is valid for
todos but falls back for categories — and the direction "ASC" is passed
through verbatim. -/
theorem C2_sort_resolution_witness :
    resolveTodoSortBy "name" = "created_at"
    ∧ resolveCategorySortBy "priority" = "created_at"
    ∧ PaginationParams.GetSortOrder ⟨1, 10, "", "ASC"⟩ = "ASC" :=
  ⟨(C2_sort_resolution ⟨1, 10, "", "ASC"⟩ "name").1 (by decide),
   (C2_sort_resolution ⟨1, 10, "", "ASC"⟩ "priority").2.1 (by decide),
   ((C2_sort_resolution ⟨1, 10, "", "ASC"⟩ "bogus").2.2).trans (by decide)⟩

/-- C4: evaluation of the four service entry points on a nil argument.
The create paths reach the nil check inside `validateTodo` /
`validateCategory` and return a validation error, but both update paths
dereference the nil pointer (`todo.ID` / `category.ID`) before any nil
check and panic — modelled as `crash` — contradicting the claim that all
four reject nil with a validation error. -/
theorem C4_nil_input_evaluation :
    createTodoService 0 ⟨[], []⟩ none = .err "todo cannot be nil"
    ∧ createCategoryService ⟨[], []⟩ none = .err "category cannot be nil"
    ∧ updateTodoService 0 ⟨[], []⟩ none = .crash
    ∧ updateCategoryService ⟨[], []⟩ none = .crash := by
  refine ⟨rfl, rfl, rfl, rfl⟩

/-- C3 counterexample: a category whose color is the six-hex-digit string
"FF0000" without the leading '#' is rejected by both create and update
with the invalid-color validation error — it does not succeed, and the
'#'-prefixing normalization never runs, because `validateCategory` runs
before `cleanCategoryData` and `isValidHexColor` requires the '#'. -/
theorem C3_counterexample :
    createCategoryService ⟨[], []⟩ (some { id := 0, name := "Work", color := "FF0000" })
      = .err "invalid color format, must be a valid hex color (e.g., #FF0000)"
    ∧ updateCategoryService ⟨[exCategory], []⟩
        (some { id := 1, name := "Work", color := "FF0000" })
      = .err "invalid color format, must be a valid hex color (e.g., #FF0000)" := by
  refine ⟨rfl, rfl⟩

/-- C3 amended: for every category whose color is a six-character string
(in particular any six hex digits without the leading '#') and whose name
is otherwise valid, the create and update operations fail validation with
the invalid-color error before anything reaches the store; the
'#'-prefixing in `cleanCategoryData` is unreachable for such inputs. -/
theorem C3_color_without_hash_rejected (db : DB) (cat : Category)
    (hn1 : goTrimSpace cat.name ≠ "") (hn2 : ¬ cat.name.utf8ByteSize > 100)
    (hlen : cat.color.data.length = 6) :
    createCategoryService db (some cat)
      = .err "invalid color format, must be a valid hex color (e.g., #FF0000)"
    ∧ (cat.id ≠ 0 → updateCategoryService db (some cat)
      = .err "invalid color format, must be a valid hex color (e.g., #FF0000)") := by
  have hne : cat.color ≠ "" := by
    intro h
    rw [h] at hlen
    exact absurd hlen (by decide)
  have hval : validateCategoryFields cat
      = some "invalid color format, must be a valid hex color (e.g., #FF0000)" := by
    unfold validateCategoryFields
    rw [if_neg hn1, if_neg hn2, if_pos]
    rw [isValidHexColor_of_length_ne cat.color (by omega)]
    simp [hne]
  constructor
  · simp [createCategoryService, hval]
  · intro hid
    simp [updateCategoryService, hid, hval]

/-- C3 witness: the amended statement at the concrete color "FF0000". -/
theorem C3_color_without_hash_witness :
    goTrimSpace ("Work" : String) ≠ ""
    ∧ ¬ ("Work" : String).utf8ByteSize > 100
    ∧ ("FF0000" : String).data.length = 6
    ∧ (createCategoryService ⟨[], []⟩ (some { id := 2, name := "Work", color := "FF0000" })
        = .err "invalid color format, must be a valid hex color (e.g., #FF0000)"
      ∧ ((2 : Nat) ≠ 0 → updateCategoryService ⟨[], []⟩
          (some { id := 2, name := "Work", color := "FF0000" })
        = .err "invalid color format, must be a valid hex color (e.g., #FF0000)")) :=
  ⟨by decide, by decide, by decide,
    C3_color_without_hash_rejected ⟨[], []⟩ { id := 2, name := "Work", color := "FF0000" }
      (by decide) (by decide) (by decide)⟩

/-- C8: for a todo with a set due date (and otherwise valid fields), the
create and update services return the due-date validation error if and
only if the due date is strictly earlier than `now - 24h` (86400 s); on
rejection the services return before the store is touched, so nothing is
persisted. -/
theorem C8_due_date_window (now : Int) (db : DB) (t : Todo) (d : Int)
    (hd : t.dueDate = some d) (hv : validateTodoFields t = none) :
    (createTodoService now db (some t) = .err "due date cannot be in the past"
      ↔ d < now - 86400)
    ∧ (t.id ≠ 0 →
      (updateTodoService now db (some t) = .err "due date cannot be in the past"
        ↔ d < now - 86400)) := by
  have hdc : (cleanTodoData t).dueDate = some d := by
    simp [cleanTodoData, hd]
  by_cases hlt : d < now - 86400
  · have hbr : validateTodoBusinessRules now db (cleanTodoData t)
        = some "due date cannot be in the past" := by
      simp [validateTodoBusinessRules, hdc, hlt]
    refine ⟨?_, fun hid => ?_⟩
    · rw [iff_true_right hlt]
      simp [createTodoService, hv, hbr]
    · rw [iff_true_right hlt]
      simp [updateTodoService, hid, hv, hbr]
  · have hbr : validateTodoBusinessRules now db (cleanTodoData t) = none
        ∨ validateTodoBusinessRules now db (cleanTodoData t)
          = some "specified category does not exist" := by
      cases hcid : (cleanTodoData t).categoryId with
      | none => exact Or.inl (by simp [validateTodoBusinessRules, hdc, hlt, hcid])
      | some cid =>
        cases hfc : findCategory db cid with
        | none => exact Or.inr (by simp [validateTodoBusinessRules, hdc, hlt, hcid, hfc])
        | some c => exact Or.inl (by simp [validateTodoBusinessRules, hdc, hlt, hcid, hfc])
    have hcr : createTodoService now db (some t) ≠ .err "due date cannot be in the past" := by
      rcases hbr with hbr | hbr
      · simp only [createTodoService, hv, hbr]
        cases hrc : todoRepoCreate db (cleanTodoData t) with
        | error e =>
          have he := todoRepoCreate_error db (cleanTodoData t) e hrc
          subst he
          simp
        | ok db2 => simp
      · simp [createTodoService, hv, hbr]
    have hup : updateTodoService now db (some t) ≠ .err "due date cannot be in the past" := by
      by_cases hid : t.id = 0
      · simp [updateTodoService, hid]
      · rcases hbr with hbr | hbr
        · simp only [updateTodoService, hid, hv, hbr, if_neg]
          cases hru : todoRepoUpdate db (cleanTodoData t) with
          | error e =>
            have he := todoRepoUpdate_error db (cleanTodoData t) e hru
            rcases he with he | he | he <;> (subst he; simp)
          | ok db2 => simp
        · simp [updateTodoService, hid, hv, hbr]
    exact ⟨iff_of_false hcr hlt, fun _ => iff_of_false hup hlt⟩

/-- C8 witness: at `now = 1000000`, a due date 48 hours in the past is
rejected with the due-date error, by the forward use of the equivalence
at a concrete todo. -/
theorem C8_due_date_window_witness :
    ({ id := 1, title := "t", dueDate := some (1000000 - 48 * 3600) } : Todo).dueDate
        = some (1000000 - 48 * 3600)
    ∧ validateTodoFields { id := 1, title := "t", dueDate := some (1000000 - 48 * 3600) } = none
    ∧ ((createTodoService 1000000 ⟨[], []⟩
          (some { id := 1, title := "t", dueDate := some (1000000 - 48 * 3600) })
          = .err "due date cannot be in the past"
        ↔ (1000000 - 48 * 3600 : Int) < 1000000 - 86400)
      ∧ ((1 : Nat) ≠ 0 →
        (updateTodoService 1000000 ⟨[], []⟩
            (some { id := 1, title := "t", dueDate := some (1000000 - 48 * 3600) })
            = .err "due date cannot be in the past"
          ↔ (1000000 - 48 * 3600 : Int) < 1000000 - 86400))) :=
  ⟨rfl, by decide,
    C8_due_date_window 1000000 ⟨[], []⟩
      { id := 1, title := "t", dueDate := some (1000000 - 48 * 3600) }
      (1000000 - 48 * 3600) rfl (by decide)⟩

/-- C9: for a category that exists (live) in the store, Delete fails with
the has-dependents conflict error when some live todo references it (the
model is pure, so the error branch changes no state), and when no live
todo references it Delete succeeds, every row with that id carries the
soft-delete marker afterwards, and a subsequent GetByID returns the
not-found error. -/
theorem C9_category_delete (db : DB) (now : Int) (id : Nat) (cat : Category)
    (hfind : findCategory db id = some cat) :
    ((∃ t ∈ db.todos, t.deletedAt = none ∧ t.categoryId = some id) →
      categoryRepoDelete db now id = .error "cannot delete category with associated todos")
    ∧ ((∀ t ∈ db.todos, t.deletedAt = none → t.categoryId ≠ some id) →
      ∃ db2, categoryRepoDelete db now id = .ok db2
        ∧ (∀ c ∈ db2.categories, c.id = id → c.deletedAt ≠ none)
        ∧ categoryRepoGetByID db2 id = .error "category not found") := by
  constructor
  · rintro ⟨t, htm, htd, htc⟩
    have hmem : t ∈ db.todos.filter (fun u => u.deletedAt = none && u.categoryId = some id) := by
      rw [List.mem_filter]
      exact ⟨htm, by simp [htd, htc]⟩
    have hlen : 0 < (db.todos.filter
        (fun u => u.deletedAt = none && u.categoryId = some id)).length :=
      List.length_pos.mpr (List.ne_nil_of_mem hmem)
    unfold categoryRepoDelete
    rw [hfind]
    simp only []
    rw [if_pos hlen]
  · intro hnone
    have hnil : db.todos.filter (fun u => u.deletedAt = none && u.categoryId = some id) = [] := by
      rw [List.filter_eq_nil_iff]
      intro t htm
      simp only [Bool.and_eq_true, decide_eq_true_eq, not_and]
      intro h1 h2
      exact hnone t htm h1 h2
    have hmark : ∀ c ∈ (softDeleteCategory db now id).categories,
        c.id = id → c.deletedAt ≠ none := by
      intro c hc hcid
      simp only [softDeleteCategory, List.mem_map] at hc
      obtain ⟨c0, hc0m, hc0e⟩ := hc
      by_cases hcond : (c0.id = id && c0.deletedAt = none) = true
      · rw [if_pos hcond] at hc0e
        rw [← hc0e]
        simp
      · rw [if_neg hcond] at hc0e
        rw [← hc0e] at hcid ⊢
        simp only [Bool.and_eq_true, decide_eq_true_eq, not_and] at hcond
        intro hdel
        exact hcond hcid hdel
    refine ⟨softDeleteCategory db now id, ?_, hmark, ?_⟩
    · unfold categoryRepoDelete
      rw [hfind]
      simp only []
      rw [hnil]
      rfl
    · have hfind2 : findCategory (softDeleteCategory db now id) id = none := by
        unfold findCategory
        rw [List.find?_eq_none]
        intro c hc
        simp only [Bool.and_eq_true, decide_eq_true_eq, not_and]
        intro h1 h2
        exact hmark c hc h1 h2
      unfold categoryRepoGetByID
      rw [hfind2]

/-- C9 witness: deleting the only category of a store with no todos
succeeds, marks it deleted, and GetByID then reports not-found. -/
theorem C9_category_delete_witness :
    findCategory ⟨[exCategory], []⟩ 1 = some exCategory
    ∧ (((∃ t ∈ (⟨[exCategory], []⟩ : DB).todos, t.deletedAt = none ∧ t.categoryId = some 1) →
        categoryRepoDelete ⟨[exCategory], []⟩ 100 1
          = .error "cannot delete category with associated todos")
      ∧ ((∀ t ∈ (⟨[exCategory], []⟩ : DB).todos, t.deletedAt = none → t.categoryId ≠ some 1) →
        ∃ db2, categoryRepoDelete ⟨[exCategory], []⟩ 100 1 = .ok db2
          ∧ (∀ c ∈ db2.categories, c.id = 1 → c.deletedAt ≠ none)
          ∧ categoryRepoGetByID db2 1 = .error "category not found")) :=
  ⟨rfl, C9_category_delete ⟨[exCategory], []⟩ 100 1 exCategory rfl⟩

/-- C10: a category whose color is the empty string passes validation
(the #RRGGBB check applies only to non-empty colors), normalization
leaves the color unchanged, and an update call (against an existing live
row, with no other row — live or soft-deleted — holding the new name,
per the global unique constraint on name) succeeds and persists the
empty color. -/
theorem C10_empty_color_update (db : DB) (cat : Category)
    (hcol : cat.color = "") (hid : cat.id ≠ 0)
    (hn1 : goTrimSpace cat.name ≠ "") (hn2 : ¬ cat.name.utf8ByteSize > 100)
    (hrow : ∃ c, findCategory db cat.id = some c)
    (huniq : categoryNameTaken db cat.id (goTrimSpace cat.name) = false) :
    validateCategoryFields cat = none
    ∧ (cleanCategoryData cat).color = ""
    ∧ ∃ db2, updateCategoryService db (some cat) = .ok db2
        ∧ ∃ c ∈ db2.categories, c.id = cat.id ∧ c.color = "" := by
  obtain ⟨crow, hcrow⟩ := hrow
  have hval : validateCategoryFields cat = none := by
    unfold validateCategoryFields
    rw [if_neg hn1, if_neg hn2, if_neg (by simp [hcol])]
  have hclean : (cleanCategoryData cat).color = "" := by
    simp [cleanCategoryData, hcol]
  have hcleanid : (cleanCategoryData cat).id = cat.id := rfl
  have hcleanname : (cleanCategoryData cat).name = goTrimSpace cat.name := rfl
  have hrepo : categoryRepoUpdate db (cleanCategoryData cat)
      = .ok { db with categories :=
          db.categories.map (fun c =>
            if c.id = cat.id && c.deletedAt = none then cleanCategoryData cat else c) } := by
    unfold categoryRepoUpdate
    rw [hcleanid, hcrow]
    simp only []
    rw [if_neg (by rw [hcleanname, huniq]; simp)]
  refine ⟨hval, hclean,
    { db with categories :=
      db.categories.map (fun c =>
        if c.id = cat.id && c.deletedAt = none then cleanCategoryData cat else c) }, ?_, ?_⟩
  · simp [updateCategoryService, hid, hval, hrepo]
  · have hmemrow : crow ∈ db.categories := List.mem_of_find?_eq_some hcrow
    have hpred := List.find?_some hcrow
    simp only [Bool.and_eq_true, decide_eq_true_eq] at hpred
    refine ⟨cleanCategoryData cat, ?_, hcleanid, hclean⟩
    rw [List.mem_map]
    refine ⟨crow, hmemrow, ?_⟩
    rw [if_pos (by simp [hpred.1, hpred.2])]

/-- C10 witness: updating an existing category to name "New" with empty
color succeeds and the stored row keeps the empty color. -/
theorem C10_empty_color_update_witness :
    ({ id := 1, name := "New", color := "" } : Category).color = ""
    ∧ (validateCategoryFields { id := 1, name := "New", color := "" } = none
      ∧ (cleanCategoryData { id := 1, name := "New", color := "" }).color = ""
      ∧ ∃ db2, updateCategoryService ⟨[{ id := 1, name := "Old", color := "#FFFFFF" }], []⟩
            (some { id := 1, name := "New", color := "" }) = .ok db2
          ∧ ∃ c ∈ db2.categories,
              c.id = ({ id := 1, name := "New", color := "" } : Category).id ∧ c.color = "") :=
  ⟨rfl,
    C10_empty_color_update ⟨[{ id := 1, name := "Old", color := "#FFFFFF" }], []⟩
      { id := 1, name := "New", color := "" }
      rfl (by decide) (by decide) (by decide) ⟨{ id := 1, name := "Old", color := "#FFFFFF" }, rfl⟩
      (by decide)⟩

end TodoBackend
